import Mathlib

/-!
Verification development for the WebSocket push server in `src/server.py`
(class `WebSocketServer`).  The Python code is shallowly embedded: the
per-server mutable dictionaries (`client_playback_tasks`,
`client_current_playing`, `connected_clients`) become an explicit
`ServerState` record threaded through pure transition functions, inbound
frames become a `Frame` structure (fields read with `dict.get` become
`Option`/`PyVal` fields), outbound `websocket.send` calls become elements of
an ordered emission list, and the concurrent playback coroutine
(`simulate_playback`) becomes a function of the time-indexed liveness and
send-success observations it makes at each of its checkpoints.
-/

/-- A Python value as it matters to `server.py`: the `actionGroupID` field of
an inbound frame is used only through its truthiness (`if not action_group_id`),
through equality (dict keys, comparison with the current-playing pointer) and
through string interpolation.  `vNone` is the result of `dict.get` on a
missing key. -/
inductive PyVal
  | vInt (n : Int)
  | vStr (s : String)
  | vBool (b : Bool)
  | vNone
deriving DecidableEq

/-- Python truthiness of a `PyVal`, as tested by `if not action_group_id:`
in `process_message` (`server.py` lines 253 and 296). -/
def PyVal.truthy : PyVal → Bool
  | .vInt n => n != 0
  | .vStr s => s != ""
  | .vBool b => b
  | .vNone => false

/-- Python `str()` rendering of a `PyVal`, used when an id is interpolated
into an error message.  The exact text of the rendering is irrelevant to
every claim; only which value is being rendered matters. -/
def pyValStr : PyVal → String
  | .vInt n => toString n
  | .vStr s => s
  | .vBool b => if b then "True" else "False"
  | .vNone => "None"

/-- Lookup in an association list, the embedding of a Python dict read
(`d[k]` / `k in d` / `d.get(k)`). -/
def lookupD [DecidableEq α] : List (α × β) → α → Option β
  | [], _ => none
  | kv :: rest, k => if kv.1 = k then some kv.2 else lookupD rest k

/-- Insertion into an association list, the embedding of a Python dict write
`d[k] = v`: the first binding of `k` is overwritten in place, otherwise the
binding is appended. -/
def insertD [DecidableEq α] : List (α × β) → α → β → List (α × β)
  | [], k, v => [(k, v)]
  | kv :: rest, k, v => if kv.1 = k then (k, v) :: rest else kv :: insertD rest k v

/-- Deletion from an association list, the embedding of a Python dict delete
`del d[k]`: every binding of `k` is removed. -/
def eraseD [DecidableEq α] : List (α × β) → α → List (α × β)
  | [], _ => []
  | kv :: rest, k => if kv.1 = k then eraseD rest k else kv :: eraseD rest k

theorem lookupD_insertD [DecidableEq α] (l : List (α × β)) (k k' : α) (v : β) :
    lookupD (insertD l k v) k' = if k = k' then some v else lookupD l k' := by
  induction l with
  | nil =>
    by_cases h : k = k' <;> simp [insertD, lookupD, h]
  | cons kv rest ih =>
    simp only [insertD]
    by_cases hk : kv.1 = k
    · rw [if_pos hk]
      by_cases h : k = k'
      · simp [lookupD, h]
      · have hk' : ¬ kv.1 = k' := fun he => h (hk.symm.trans he)
        simp [lookupD, h, hk']
    · rw [if_neg hk]
      by_cases h : kv.1 = k'
      · have hkk' : ¬ k = k' := fun he => hk (he ▸ h)
        simp [lookupD, h, hkk']
      · simp only [lookupD, if_neg h, ih]

theorem lookupD_eraseD [DecidableEq α] (l : List (α × β)) (k k' : α) :
    lookupD (eraseD l k) k' = if k = k' then none else lookupD l k' := by
  induction l with
  | nil => simp [eraseD, lookupD]
  | cons kv rest ih =>
    simp only [eraseD]
    by_cases hk : kv.1 = k
    · rw [if_pos hk, ih]
      by_cases h : k = k'
      · simp [h]
      · have hk' : ¬ kv.1 = k' := fun he => h (hk.symm.trans he)
        simp [lookupD, h, hk']
    · rw [if_neg hk]
      by_cases h : kv.1 = k'
      · have hkk' : ¬ k = k' := fun he => hk (he ▸ h)
        simp [lookupD, h, hkk']
      · simp only [lookupD, if_neg h, ih]

theorem mem_eraseD [DecidableEq α] (l : List (α × β)) (k : α) (x : α × β) :
    x ∈ eraseD l k ↔ x ∈ l ∧ x.1 ≠ k := by
  induction l with
  | nil => simp [eraseD]
  | cons kv rest ih =>
    simp only [eraseD]
    by_cases hk : kv.1 = k
    · rw [if_pos hk, ih]
      constructor
      · rintro ⟨hx, hne⟩
        exact ⟨List.mem_cons_of_mem kv hx, hne⟩
      · rintro ⟨hx, hne⟩
        rcases List.mem_cons.mp hx with rfl | hx
        · exact absurd hk hne
        · exact ⟨hx, hne⟩
    · rw [if_neg hk]
      constructor
      · intro hx
        rcases List.mem_cons.mp hx with rfl | hx
        · exact ⟨List.mem_cons_self x rest, hk⟩
        · rcases (ih.mp hx) with ⟨hx', hne⟩
          exact ⟨List.mem_cons_of_mem kv hx', hne⟩
      · rintro ⟨hx, hne⟩
        rcases List.mem_cons.mp hx with rfl | hx
        · exact List.mem_cons_self x (eraseD rest k)
        · exact List.mem_cons_of_mem kv (ih.mpr ⟨hx, hne⟩)

theorem length_eraseD_le [DecidableEq α] (l : List (α × β)) (k : α) :
    (eraseD l k).length ≤ l.length := by
  induction l with
  | nil => simp [eraseD]
  | cons kv rest ih =>
    by_cases hk : kv.1 = k
    · simp only [eraseD, if_pos hk, List.length_cons]
      exact Nat.le_succ_of_le ih
    · simp only [eraseD, if_neg hk, List.length_cons]
      exact Nat.succ_le_succ ih

theorem eraseD_eq_of_lookupD_none [DecidableEq α] (l : List (α × β)) (k : α)
    (h : lookupD l k = none) : eraseD l k = l := by
  induction l with
  | nil => simp [eraseD]
  | cons kv rest ih =>
    by_cases hk : kv.1 = k
    · simp [lookupD, hk] at h
    · simp only [lookupD, if_neg hk] at h
      simp [eraseD, hk, ih h]

theorem lookupD_isSome_of_mem [DecidableEq α] (l : List (α × β)) (k : α) (v : β)
    (h : (k, v) ∈ l) : (lookupD l k).isSome = true := by
  induction l with
  | nil => simp at h
  | cons kv rest ih =>
    rcases List.mem_cons.mp h with h | h
    · simp [lookupD, ← h]
    · by_cases hk : kv.1 = k
      · simp [lookupD, hk]
      · simp only [lookupD, if_neg hk]
        exact ih h

theorem mem_keys_of_lookupD_isSome [DecidableEq α] (l : List (α × β)) (k : α)
    (h : (lookupD l k).isSome = true) : k ∈ l.map Prod.fst := by
  induction l with
  | nil => simp [lookupD] at h
  | cons kv rest ih =>
    by_cases hk : kv.1 = k
    · rw [List.map_cons, hk]
      exact List.mem_cons_self k (rest.map Prod.fst)
    · simp only [lookupD, if_neg hk] at h
      rw [List.map_cons]
      exact List.mem_cons_of_mem kv.1 (ih h)

/-- The handle a Python `asyncio.Task` contributes to the state: an identity
(used to say which tasks had `cancel()` called on them) and the `task.done()`
flag consulted before cancelling. -/
structure ATask where
  tid : Nat
  done : Bool
deriving DecidableEq

/-- A registered websocket connection as `broadcast_message` and the registry
see it: its identity (`id(websocket)` in the source) and whether a send on it
would succeed (false once the peer's socket is gone). -/
structure BClient where
  cid : Nat
  sendOk : Bool
deriving DecidableEq

/-- The mutable attributes of `WebSocketServer` (`server.py` lines 71-74):
`connected_clients` (a set of websockets), `client_playback_tasks`
(dict client_id -> dict actionGroupID -> task) and `client_current_playing`
(dict client_id -> currently playing actionGroupID or None).  `next_tid`
supplies the identity of the next task `asyncio.create_task` would return. -/
structure ServerState where
  connected_clients : List BClient
  client_playback_tasks : List (Nat × List (PyVal × ATask))
  client_current_playing : List (Nat × Option PyVal)
  next_tid : Nat
deriving DecidableEq

/-- A parsed inbound frame, holding the fields `process_message` reads:
`data.get('type', 'unknown')`, `data.get('actionGroupID')` and
`data.get('message', ...)`.  `ftype`/`message` are `none` when the key is
absent; an absent `actionGroupID` reads as `PyVal.vNone`, exactly as
`dict.get` returns `None`. -/
structure Frame where
  ftype : Option String
  actionGroupID : PyVal
  message : Option String
deriving DecidableEq

/-- `msg_type = data.get('type', 'unknown')` (`server.py` line 248). -/
def msg_type (f : Frame) : String := f.ftype.getD "unknown"

/-- Stand-in for Python's `str(data)` rendering of the whole frame, used as
the default for `original_message` in `send_ack`.  No claim depends on the
exact text, only on which frame is rendered. -/
def frameStr (f : Frame) : String :=
  "dict type " ++ f.ftype.getD "absent" ++ " actionGroupID " ++
    pyValStr f.actionGroupID ++ " message " ++ f.message.getD "absent"

/-- `original_message = data.get('message', str(data))` (`server.py` line 244). -/
def origMsg (f : Frame) : String := f.message.getD (frameStr f)

/-- The text `send_ack` builds around the original message (`server.py`
line 82; the f-string's surrounding single quotes are immaterial and
omitted). -/
def ackText (m : String) : String := "接收到的消息 " ++ m ++ " 处理成功"

/-- One outbound event, identified by its `type` tag and the `data` fields
the claims inspect.  `timestamp` (wall-clock milliseconds) is environment
data carried by every event and not modelled. -/
inductive Event
  | ack (status : String) (message : String)
  | welcome (message : String)
  | errorEvt (message : String) (actionGroupID : PyVal)
  | invalidFormat (originalMessage : String)
  | actionStartAck (actionGroupID : PyVal)
  | actionStopAck (actionGroupID : PyVal)
  | actionResetAck (actionGroupID : Int)
  | progress (value : ℚ) (actionGroupID : PyVal)
  | actionEnd (value : ℚ) (actionGroupID : PyVal)
  | echoResponse (originalMessage : String)
  | broadcastEvt (message : String) (fromClient : Nat)
  | serverInfo (connectedClients : Nat)
  | heartbeatAck
  | unknownCommand
deriving DecidableEq

/-- A send performed while a command is processed: on the issuing client's
own connection, or (broadcast fan-out) on another client's connection. -/
inductive Emit
  | toSelf (e : Event)
  | toOther (cid : Nat) (e : Event)
deriving DecidableEq

/-- An inbound text payload: either not JSON-parseable (the
`json.JSONDecodeError` branch of `process_message`) or a parsed frame. -/
inductive InMsg
  | malformed (raw : String)
  | wellFormed (f : Frame)
deriving DecidableEq

/-- `progress_value = min(100.0, float((i + 1) * 100.0 / progress_steps))`
(`server.py` line 101).  Arithmetic is embedded in `ℚ`; for the step counts
the code draws (5-10) every quantity here is exactly representable as an
IEEE double and the float computation agrees with the rational one. -/
def progVal (n i : Nat) : ℚ := min 100 (((i : ℚ) + 1) * 100 / (n : ℚ))

/-- Model of `random.randint(5, 10)` (`server.py` line 93): the step counts a
playback run can draw. -/
def stepChoices : List Nat := [5, 6, 7, 8, 9, 10]

/-- The `for i in range(progress_steps)` loop of `simulate_playback`
(`server.py` lines 94-123), iterations `i, i+1, ...` while `r` iterations
remain.  `alive k` is what the liveness check at the top of iteration `k`
observes (`client_id in self.client_playback_tasks and action_group_id in
self.client_playback_tasks[client_id]`) — the table can be mutated between
iterations by the router, so the observation is indexed by time.  `sendOk k`
tells whether the progress send of iteration `k` succeeds; a raising send
delivers nothing and breaks out of the loop.  Returns the events emitted and
whether control reached the code after the loop (false when the dead
liveness check returned from the coroutine). -/
def playbackSteps (n : Nat) (agid : PyVal) (alive sendOk : Nat → Bool) :
    Nat → Nat → List Event × Bool
  | _, 0 => ([], true)
  | i, r + 1 =>
    if alive i then
      if sendOk i then
        (Event.progress (progVal n i) agid ::
            (playbackSteps n agid alive sendOk (i + 1) r).1,
          (playbackSteps n agid alive sendOk (i + 1) r).2)
      else ([], true)
    else ([], false)

/-- One full run of `simulate_playback` (`server.py` lines 88-147) with step
count `n`: the loop, then — only if the loop was not exited by the dead
liveness check — the re-check `alive n` guarding the terminal `actionEnd`
(lines 125-127), whose send may itself fail silently.  The state cleanup the
source performs after a live final check is modelled by `playback_finish`
below. -/
def simulate_playback (n : Nat) (agid : PyVal) (alive sendOk : Nat → Bool) :
    List Event :=
  if (playbackSteps n agid alive sendOk 0 n).2 then
    if alive n then
      (playbackSteps n agid alive sendOk 0 n).1 ++
        (if sendOk n then [Event.actionEnd 100 agid] else [])
    else (playbackSteps n agid alive sendOk 0 n).1
  else (playbackSteps n agid alive sendOk 0 n).1

theorem playbackSteps_run (n : Nat) (agid : PyVal) (alive sendOk : Nat → Bool) :
    ∀ r i, (∀ k, i ≤ k → k < i + r → alive k = true ∧ sendOk k = true) →
      playbackSteps n agid alive sendOk i r =
        ((List.range' i r).map (fun j => Event.progress (progVal n j) agid), true) := by
  intro r
  induction r with
  | zero => intro i _; simp [playbackSteps]
  | succ r ih =>
    intro i h
    have hi := h i le_rfl (by omega)
    have hrest : ∀ k, i + 1 ≤ k → k < i + 1 + r → alive k = true ∧ sendOk k = true :=
      fun k h1 h2 => h k (by omega) (by omega)
    simp only [playbackSteps, hi.1, hi.2, if_pos, ih (i + 1) hrest, List.range'_succ,
      List.map_cons]

theorem simulate_playback_complete (n : Nat) (agid : PyVal) (alive sendOk : Nat → Bool)
    (ha : ∀ k, k ≤ n → alive k = true) (hs : ∀ k, k ≤ n → sendOk k = true) :
    simulate_playback n agid alive sendOk =
      (List.range n).map (fun j => Event.progress (progVal n j) agid) ++
        [Event.actionEnd 100 agid] := by
  have hrun := playbackSteps_run n agid alive sendOk n 0
    (fun k h1 h2 => ⟨ha k (by omega), hs k (by omega)⟩)
  simp [simulate_playback, hrun, ha n le_rfl, hs n le_rfl, List.range_eq_range']

theorem progVal_eq_div (n i : Nat) (h : i < n) :
    progVal n i = ((i : ℚ) + 1) * 100 / (n : ℚ) := by
  have h0 : 0 < n := by omega
  have hn : (0 : ℚ) < (n : ℚ) := by exact_mod_cast h0
  have hi : ((i : ℚ) + 1) ≤ (n : ℚ) := by
    have : (i + 1 : Nat) ≤ n := h
    exact_mod_cast this
  unfold progVal
  apply min_eq_right
  rw [div_le_iff₀ hn]
  nlinarith

theorem progVal_strictMono (n i j : Nat) (hij : i < j) (hj : j < n) :
    progVal n i < progVal n j := by
  have h0 : 0 < n := by omega
  have hn : (0 : ℚ) < (n : ℚ) := by exact_mod_cast h0
  rw [progVal_eq_div n i (by omega), progVal_eq_div n j hj]
  have hij' : ((i : ℚ) + 1) < ((j : ℚ) + 1) := by
    have : (i : ℚ) < (j : ℚ) := by exact_mod_cast hij
    linarith
  rw [div_lt_div_iff₀ hn hn]
  nlinarith

theorem progVal_last (n : Nat) (h : 0 < n) : progVal n (n - 1) = 100 := by
  have hn : (0 : ℚ) < (n : ℚ) := by exact_mod_cast h
  have hne : (n : ℚ) ≠ 0 := ne_of_gt hn
  have hcast : ((n - 1 : Nat) : ℚ) + 1 = (n : ℚ) := by
    have h2 : ((n - 1 + 1 : Nat) : ℚ) = (n : ℚ) := by
      exact_mod_cast congrArg (Nat.cast : Nat → ℚ) (Nat.succ_pred_eq_of_pos h)
    push_cast at h2
    linarith
  unfold progVal
  rw [hcast]
  have hdiv : (n : ℚ) * 100 / (n : ℚ) = 100 := by
    rw [mul_comm, mul_div_assoc, div_self hne, mul_one]
  rw [hdiv, min_self]

theorem playbackSteps_events (n : Nat) (agid : PyVal) (alive sendOk : Nat → Bool) :
    ∀ r i e, e ∈ (playbackSteps n agid alive sendOk i r).1 →
      ∃ j, i ≤ j ∧ j < i + r ∧ alive j = true ∧
        e = Event.progress (progVal n j) agid := by
  intro r
  induction r with
  | zero => intro i e he; simp [playbackSteps] at he
  | succ r ih =>
    intro i e he
    by_cases hai : alive i = true
    · by_cases hsi : sendOk i = true
      · simp only [playbackSteps, hai, hsi, if_pos] at he
        rcases List.mem_cons.mp he with rfl | he
        · exact ⟨i, le_rfl, by omega, hai, rfl⟩
        · rcases ih (i + 1) e he with ⟨j, h1, h2, h3, h4⟩
          exact ⟨j, by omega, by omega, h3, h4⟩
      · simp [playbackSteps, hai, hsi] at he
    · simp [playbackSteps, hai] at he

/-- Claim C2: a playback run of `simulate_playback` that completes without
cancellation (every liveness check passes; every send succeeds) has a step
count `n` drawn from 5-10, emits at step `i` exactly the progress value
`min(100, (i+1)*100/n)` followed by a terminal `actionEnd` with value
exactly 100, the progress values are strictly increasing, and the final
progress value is exactly 100. -/
theorem playback_complete_run (n : Nat) (agid : PyVal) (alive sendOk : Nat → Bool)
    (hn : n ∈ stepChoices)
    (ha : ∀ k, k ≤ n → alive k = true) (hs : ∀ k, k ≤ n → sendOk k = true) :
    simulate_playback n agid alive sendOk =
        (List.range n).map (fun j => Event.progress (progVal n j) agid) ++
          [Event.actionEnd 100 agid] ∧
      (5 ≤ n ∧ n ≤ 10) ∧
      (∀ i j, i < j → j < n → progVal n i < progVal n j) ∧
      progVal n (n - 1) = 100 := by
  have hb : 5 ≤ n ∧ n ≤ 10 := by
    simp only [stepChoices, List.mem_cons, List.not_mem_nil, or_false] at hn
    rcases hn with rfl | rfl | rfl | rfl | rfl | rfl <;> omega
  exact ⟨simulate_playback_complete n agid alive sendOk ha hs, hb,
    fun i j hij hj => progVal_strictMono n i j hij hj,
    progVal_last n (by omega)⟩

theorem playback_complete_run_witness :
    simulate_playback 5 (PyVal.vInt 7) (fun _ => true) (fun _ => true) =
        (List.range 5).map (fun j => Event.progress (progVal 5 j) (PyVal.vInt 7)) ++
          [Event.actionEnd 100 (PyVal.vInt 7)] ∧
      (5 ≤ 5 ∧ 5 ≤ 10) ∧
      (∀ i j, i < j → j < 5 → progVal 5 i < progVal 5 j) ∧
      progVal 5 4 = 100 :=
  playback_complete_run 5 (PyVal.vInt 7) (fun _ => true) (fun _ => true)
    (by decide) (fun _ _ => rfl) (fun _ _ => rfl)

theorem playback_events_before_dead (n m : Nat) (agid : PyVal)
    (alive sendOk : Nat → Bool) (hmn : m ≤ n)
    (hdead : ∀ k, m ≤ k → alive k = false) :
    ∀ e ∈ simulate_playback n agid alive sendOk,
      ∃ i, i < m ∧ e = Event.progress (progVal n i) agid := by
  intro e he
  have halive_n : alive n = false := hdead n hmn
  have hsim : e ∈ (playbackSteps n agid alive sendOk 0 n).1 := by
    unfold simulate_playback at he
    cases hb : (playbackSteps n agid alive sendOk 0 n).2 <;>
      simp only [hb, halive_n, Bool.false_eq_true, if_false, if_true] at he <;>
      exact he
  rcases playbackSteps_events n agid alive sendOk n 0 e hsim with ⟨j, _, hj2, hj3, hj4⟩
  refine ⟨j, ?_, hj4⟩
  by_contra hge
  have hf := hdead j (by omega)
  rw [hj3] at hf
  exact Bool.noConfusion hf

/-- Claim C3: once the task's entry is removed from the session's task table
(so every liveness observation from checkpoint `m` on is false, covering
removal by actionStop, actionReset, a superseding actionStart under a
different key, and disconnect teardown), the playback loop emits nothing
further: every emitted event is a progress event of a step before `m`, and
in particular no terminal `actionEnd` is emitted — the loop checks liveness
at the top of every iteration before emitting, and once more before the
terminal `actionEnd`. -/
theorem playback_cancelled_silent (n m : Nat) (agid : PyVal)
    (alive sendOk : Nat → Bool) (hmn : m ≤ n)
    (hdead : ∀ k, m ≤ k → alive k = false) :
    ∀ e ∈ simulate_playback n agid alive sendOk,
      ∃ i, i < m ∧ e = Event.progress (progVal n i) agid :=
  playback_events_before_dead n m agid alive sendOk hmn hdead

theorem playback_cancelled_silent_witness :
    ∃ i, i < 2 ∧ Event.progress (progVal 5 0) (PyVal.vInt 7) =
      Event.progress (progVal 5 i) (PyVal.vInt 7) :=
  playback_cancelled_silent 5 2 (PyVal.vInt 7) (fun k => decide (k < 2))
    (fun _ => true) (by omega) (fun k hk => decide_eq_false (by omega))
    (Event.progress (progVal 5 0) (PyVal.vInt 7))
    (by
      have h : simulate_playback 5 (PyVal.vInt 7) (fun k => decide (k < 2))
          (fun _ => true) =
          [Event.progress (progVal 5 0) (PyVal.vInt 7),
            Event.progress (progVal 5 1) (PyVal.vInt 7)] := rfl
      rw [h]
      exact List.mem_cons_self _ _)

/-- `client_id in self.client_playback_tasks and action_group_id in
self.client_playback_tasks[client_id]` — the liveness test used by the
playback loop (`server.py` lines 96-97 and 126-127) and by the `actionStop`
handler (lines 309-310). -/
def taskAlive (st : ServerState) (cid : Nat) (agid : PyVal) : Bool :=
  match lookupD st.client_playback_tasks cid with
  | none => false
  | some tbl => (lookupD tbl agid).isSome

/-- `WebSocketServer._cleanup_playback_task` (`server.py` lines 149-166):
cancel the task under the key if present and not done, delete the key,
delete the whole per-client entry if its dict became empty, and clear the
current-playing pointer if it referenced the key.  Returns the new state and
the identities of the tasks `cancel()` was called on. -/
def cleanup_playback_task (st : ServerState) (client_id : Nat) (action_group_id : PyVal) :
    ServerState × List Nat :=
  match lookupD st.client_playback_tasks client_id with
  | none =>
    ({ st with
        client_current_playing :=
          match lookupD st.client_current_playing client_id with
          | some c =>
            if c = some action_group_id then
              insertD st.client_current_playing client_id none
            else st.client_current_playing
          | none => st.client_current_playing }, [])
  | some tbl =>
    let cancelled :=
      match lookupD tbl action_group_id with
      | none => []
      | some t => if t.done then [] else [t.tid]
    let tbl2 :=
      match lookupD tbl action_group_id with
      | none => tbl
      | some _ => eraseD tbl action_group_id
    ({ st with
        client_playback_tasks :=
          if tbl2.isEmpty then eraseD st.client_playback_tasks client_id
          else insertD st.client_playback_tasks client_id tbl2,
        client_current_playing :=
          match lookupD st.client_current_playing client_id with
          | some c =>
            if c = some action_group_id then
              insertD st.client_current_playing client_id none
            else st.client_current_playing
          | none => st.client_current_playing }, cancelled)

/-- `WebSocketServer._stop_all_playback` (`server.py` lines 168-190): if the
client has no entry in the task table, return early WITHOUT sending anything;
otherwise clean up every key and send one `actionResetAck` with
`actionGroupID` 0. -/
def stop_all_playback (st : ServerState) (client_id : Nat) : ServerState × List Emit :=
  match lookupD st.client_playback_tasks client_id with
  | none => (st, [])
  | some tbl =>
    ((tbl.map Prod.fst).foldl (fun s k => (cleanup_playback_task s client_id k).1) st,
      [Emit.toSelf (Event.actionResetAck 0)])

/-- Phase model of the `client.send(message)` expression in the broadcast
loop (`server.py` line 435): calling a coroutine method only creates a
coroutine object and cannot raise, so the `except` branch that would remove
the failing connection from the registry is unreachable; the actual send
failures surface later inside `asyncio.gather(..., return_exceptions=True)`,
which swallows them. -/
def coroCallRaises (_ : BClient) : Bool := false

/-- `WebSocketServer.broadcast_message` (`server.py` lines 428-440): iterate
the registry, skip the sender, build the list of send coroutines (the
`except` removal guarded by `coroCallRaises` never fires), then gather the
sends with exceptions swallowed.  Returns the registry afterwards and the
identities of the clients a send was issued to, in order. -/
def broadcastStep (sender : Nat) (acc : List BClient × List BClient)
    (client : BClient) : List BClient × List BClient :=
  if client.cid ≠ sender then
    if coroCallRaises client then
      (acc.1.filter (fun c => c ≠ client), acc.2)
    else (acc.1, acc.2 ++ [client])
  else acc

def broadcast_message (registry : List BClient) (sender : Nat) : List BClient × List Nat :=
  ((registry.foldl (broadcastStep sender) (registry, [])).1,
    (registry.foldl (broadcastStep sender) (registry, [])).2.map (fun c => c.cid))

/-- The `actionStart` handler body for a truthy `actionGroupID`
(`server.py` lines 265-292): clean up the current action if one is recorded
and still present in the task table, create the new task, store it under the
key, mark the key current, and emit `actionStartAck`. -/
def actionStartRun (st : ServerState) (client_id : Nat) (agid : PyVal) :
    ServerState × List Emit :=
  let st1 :=
    match lookupD st.client_current_playing client_id with
    | some (some cur) =>
      if (lookupD ((lookupD st.client_playback_tasks client_id).getD []) cur).isSome
      then (cleanup_playback_task st client_id cur).1
      else st
    | _ => st
  let task : ATask := { tid := st1.next_tid, done := false }
  let tbl := (lookupD st1.client_playback_tasks client_id).getD []
  ({ st1 with
      client_playback_tasks :=
        insertD st1.client_playback_tasks client_id (insertD tbl agid task),
      client_current_playing :=
        insertD st1.client_current_playing client_id (some agid),
      next_tid := st1.next_tid + 1 },
    [Emit.toSelf (Event.actionStartAck agid)])

/-- The error text `缺少actionGroupID参数` of the missing-parameter error
event (`server.py` lines 257 and 300). -/
def missingAgidMsg : String := "缺少actionGroupID参数"

/-- The error text naming the unknown key in the `actionStop` not-found
error event (`server.py` line 330). -/
def notFoundMsg (agid : PyVal) : String :=
  "未找到actionGroupID为 " ++ pyValStr agid ++ " 的播放任务"

/-- The `actionStop` handler body for a truthy `actionGroupID` (`server.py`
lines 308-335): if the key has an active task, clean it up and emit
`actionStopAck`; otherwise emit an error naming the key. -/
def actionStopRun (st : ServerState) (client_id : Nat) (agid : PyVal) :
    ServerState × List Emit :=
  if taskAlive st client_id agid then
    ((cleanup_playback_task st client_id agid).1,
      [Emit.toSelf (Event.actionStopAck agid)])
  else
    (st, [Emit.toSelf (Event.errorEvt (notFoundMsg agid) agid)])

/-- The type dispatch of `process_message` (`server.py` lines 248-403),
entered after the unconditional ack: the if/elif chain on `msg_type`, with
the `if not action_group_id` validation inside the `actionStart` and
`actionStop` branches. -/
def dispatch (st : ServerState) (client_id : Nat) (f : Frame) : ServerState × List Emit :=
  if msg_type f = "actionStart" then
    if f.actionGroupID.truthy then actionStartRun st client_id f.actionGroupID
    else (st, [Emit.toSelf (Event.errorEvt missingAgidMsg PyVal.vNone)])
  else if msg_type f = "actionStop" then
    if f.actionGroupID.truthy then actionStopRun st client_id f.actionGroupID
    else (st, [Emit.toSelf (Event.errorEvt missingAgidMsg PyVal.vNone)])
  else if msg_type f = "actionReset" then
    stop_all_playback st client_id
  else if msg_type f = "echo" then
    (st, [Emit.toSelf (Event.echoResponse (f.message.getD ""))])
  else if msg_type f = "broadcast" then
    ({ st with connected_clients := (broadcast_message st.connected_clients client_id).1 },
      (broadcast_message st.connected_clients client_id).2.map
        (fun c => Emit.toOther c (Event.broadcastEvt (f.message.getD "") client_id)))
  else if msg_type f = "get_server_info" then
    (st, [Emit.toSelf (Event.serverInfo st.connected_clients.length)])
  else if msg_type f = "heartbeat" then
    (st, [Emit.toSelf Event.heartbeatAck])
  else
    (st, [Emit.toSelf Event.unknownCommand])

/-- `WebSocketServer.process_message` (`server.py` lines 237-426): a
well-formed frame is acknowledged with status `processed` before any
dispatch; a malformed frame gets an ack with status `error` plus an
invalid-format error event and is not dispatched. -/
def process_message (st : ServerState) (client_id : Nat) (m : InMsg) :
    ServerState × List Emit :=
  match m with
  | .malformed raw =>
    (st, [Emit.toSelf (Event.ack "error" "无效的JSON格式，消息解析失败"),
      Emit.toSelf (Event.invalidFormat raw)])
  | .wellFormed f =>
    ((dispatch st client_id f).1,
      Emit.toSelf (Event.ack "processed" (ackText (origMsg f))) ::
        (dispatch st client_id f).2)

/-- The connect half of `WebSocketServer.handle_client` (`server.py` lines
192-211): register the websocket, initialise the client's two table entries,
and send the welcome event. -/
def handle_client_connect (st : ServerState) (ws : BClient) :
    ServerState × List Event :=
  ({ st with
      connected_clients :=
        if ws ∈ st.connected_clients then st.connected_clients
        else st.connected_clients ++ [ws],
      client_playback_tasks := insertD st.client_playback_tasks ws.cid [],
      client_current_playing := insertD st.client_current_playing ws.cid none },
    [Event.welcome ("Hello " ++ toString ws.cid ++ ", welcome to WebSocket Server!")])

/-- The `finally` block of `WebSocketServer.handle_client` (`server.py`
lines 221-235): cancel every not-yet-done task of the client (without
awaiting anything), delete the client's task-table entry and current-playing
entry, and remove the websocket from the registry.  Returns the new state
and the identities of the tasks `cancel()` was called on. -/
def client_teardown (st : ServerState) (client_id : Nat) : ServerState × List Nat :=
  match lookupD st.client_playback_tasks client_id with
  | some tbl =>
    ({ st with
        client_playback_tasks := eraseD st.client_playback_tasks client_id,
        client_current_playing := eraseD st.client_current_playing client_id,
        connected_clients := st.connected_clients.filter (fun c => c.cid ≠ client_id) },
      (tbl.filter (fun kt => !kt.2.done)).map (fun kt => kt.2.tid))
  | none =>
    ({ st with
        client_current_playing := eraseD st.client_current_playing client_id,
        connected_clients := st.connected_clients.filter (fun c => c.cid ≠ client_id) },
      [])

/-- How `handle_client`'s message loop can end (`server.py` lines 214-220):
the peer closes cleanly (the `async for` ends), the transport drops
(`websockets.exceptions.ConnectionClosed`), or any other exception escapes
`process_message`.  The two `except` branches only log. -/
inductive ExitPath
  | normalEnd
  | connClosed
  | otherErr
deriving DecidableEq

/-- The end of `handle_client` on each exit path: Python's `try/except/
finally` runs the `finally` teardown exactly once whichever of the three
paths is taken, which the embedding makes explicit by mapping every path
through `client_teardown`. -/
def handle_client_exit (p : ExitPath) (st : ServerState) (client_id : Nat) :
    ServerState × List Nat :=
  match p with
  | .normalEnd => client_teardown st client_id
  | .connClosed => client_teardown st client_id
  | .otherErr => client_teardown st client_id

/-- The state effect of the tail of `simulate_playback` (`server.py` lines
125-147): when the final liveness re-check passes, the task cleans itself up
(natural completion); when it fails, the coroutine returns with no state
effect. -/
def playback_finish (st : ServerState) (client_id : Nat) (agid : PyVal) : ServerState :=
  if taskAlive st client_id agid then (cleanup_playback_task st client_id agid).1
  else st

/-- Every transition that mutates the server's shared state: a connection
arriving, the router processing one inbound payload, a playback task
completing naturally, and a disconnect teardown. -/
inductive ServerStep : ServerState → ServerState → Prop
  | connect (st : ServerState) (ws : BClient) :
      ServerStep st (handle_client_connect st ws).1
  | message (st : ServerState) (cid : Nat) (m : InMsg) :
      ServerStep st (process_message st cid m).1
  | finish (st : ServerState) (cid : Nat) (agid : PyVal) :
      ServerStep st (playback_finish st cid agid)
  | disconnect (st : ServerState) (cid : Nat) :
      ServerStep st (client_teardown st cid).1

/-- The per-session table invariant of claim C10: a session's playback-task
table entry, when present, holds at most one task, and its key equals the
session's current-playing pointer. -/
def sessionInvB (st : ServerState) (cid : Nat) : Bool :=
  match lookupD st.client_playback_tasks cid with
  | none => true
  | some tbl =>
    decide (tbl.length ≤ 1) &&
      tbl.all (fun kt =>
        decide (lookupD st.client_current_playing cid = some (some kt.1)))

/-- The empty server, before any client connects (`WebSocketServer.__init__`,
`server.py` lines 67-74). -/
def initialState : ServerState :=
  { connected_clients := [], client_playback_tasks := [],
    client_current_playing := [], next_tid := 0 }

theorem cleanup_tasks_self (st : ServerState) (cid : Nat) (k : PyVal) :
    lookupD (cleanup_playback_task st cid k).1.client_playback_tasks cid =
      match lookupD st.client_playback_tasks cid with
      | none => none
      | some tbl => if (eraseD tbl k).isEmpty then none else some (eraseD tbl k) := by
  cases h : lookupD st.client_playback_tasks cid with
  | none => simp [cleanup_playback_task, h]
  | some tbl =>
    cases hk : lookupD tbl k with
    | none =>
      have he : eraseD tbl k = tbl := eraseD_eq_of_lookupD_none tbl k hk
      simp only [cleanup_playback_task, h, hk, he]
      by_cases hemp : tbl.isEmpty
      · simp [hemp, lookupD_eraseD]
      · simp [hemp, lookupD_insertD]
    | some t =>
      simp only [cleanup_playback_task, h, hk]
      by_cases hemp : (eraseD tbl k).isEmpty
      · simp [hemp, lookupD_eraseD]
      · simp [hemp, lookupD_insertD]

theorem cleanup_tasks_other (st : ServerState) (cid : Nat) (k : PyVal) (c : Nat)
    (h : c ≠ cid) :
    lookupD (cleanup_playback_task st cid k).1.client_playback_tasks c =
      lookupD st.client_playback_tasks c := by
  have hcc : ¬ cid = c := fun he => h he.symm
  cases hm : lookupD st.client_playback_tasks cid with
  | none => simp [cleanup_playback_task, hm]
  | some tbl =>
    cases hk : lookupD tbl k with
    | none =>
      simp only [cleanup_playback_task, hm, hk]
      by_cases hemp : tbl.isEmpty
      · simp [hemp, lookupD_eraseD, hcc]
      · simp [hemp, lookupD_insertD, hcc]
    | some t =>
      simp only [cleanup_playback_task, hm, hk]
      by_cases hemp : (eraseD tbl k).isEmpty
      · simp [hemp, lookupD_eraseD, hcc]
      · simp [hemp, lookupD_insertD, hcc]

theorem cleanup_current_self (st : ServerState) (cid : Nat) (k : PyVal) :
    lookupD (cleanup_playback_task st cid k).1.client_current_playing cid =
      match lookupD st.client_current_playing cid with
      | none => none
      | some c => if c = some k then some none else some c := by
  cases hm : lookupD st.client_playback_tasks cid with
  | none =>
    cases hc : lookupD st.client_current_playing cid with
    | none => simp [cleanup_playback_task, hm, hc]
    | some cv =>
      by_cases hck : cv = some k
      · simp [cleanup_playback_task, hm, hc, hck, lookupD_insertD]
      · simp [cleanup_playback_task, hm, hc, hck]
  | some tbl =>
    cases hc : lookupD st.client_current_playing cid with
    | none => simp [cleanup_playback_task, hm, hc]
    | some cv =>
      by_cases hck : cv = some k
      · simp [cleanup_playback_task, hm, hc, hck, lookupD_insertD]
      · simp [cleanup_playback_task, hm, hc, hck]

theorem cleanup_current_other (st : ServerState) (cid : Nat) (k : PyVal) (c : Nat)
    (h : c ≠ cid) :
    lookupD (cleanup_playback_task st cid k).1.client_current_playing c =
      lookupD st.client_current_playing c := by
  have hcc : ¬ cid = c := fun he => h he.symm
  cases hm : lookupD st.client_playback_tasks cid with
  | none =>
    cases hc : lookupD st.client_current_playing cid with
    | none => simp [cleanup_playback_task, hm, hc]
    | some cv =>
      by_cases hck : cv = some k
      · simp [cleanup_playback_task, hm, hc, hck, lookupD_insertD, hcc]
      · simp [cleanup_playback_task, hm, hc, hck]
  | some tbl =>
    cases hc : lookupD st.client_current_playing cid with
    | none => simp [cleanup_playback_task, hm, hc]
    | some cv =>
      by_cases hck : cv = some k
      · simp [cleanup_playback_task, hm, hc, hck, lookupD_insertD, hcc]
      · simp [cleanup_playback_task, hm, hc, hck]

theorem cleanup_next_tid (st : ServerState) (cid : Nat) (k : PyVal) :
    (cleanup_playback_task st cid k).1.next_tid = st.next_tid := by
  cases hm : lookupD st.client_playback_tasks cid <;>
    simp [cleanup_playback_task, hm]

theorem cleanup_clients (st : ServerState) (cid : Nat) (k : PyVal) :
    (cleanup_playback_task st cid k).1.connected_clients = st.connected_clients := by
  cases hm : lookupD st.client_playback_tasks cid <;>
    simp [cleanup_playback_task, hm]

theorem taskAlive_cleanup (st : ServerState) (cid : Nat) (k agid : PyVal) :
    taskAlive (cleanup_playback_task st cid k).1 cid agid =
      if agid = k then false else taskAlive st cid agid := by
  unfold taskAlive
  rw [cleanup_tasks_self]
  cases hm : lookupD st.client_playback_tasks cid with
  | none => by_cases h : agid = k <;> simp [h]
  | some tbl =>
    by_cases h : agid = k
    · subst h
      by_cases hemp : (eraseD tbl agid).isEmpty = true
      · simp [hemp]
      · simp [hemp, lookupD_eraseD]
    · by_cases hemp : (eraseD tbl k).isEmpty = true
      · have hnil : eraseD tbl k = [] := List.isEmpty_iff.mp hemp
        have h1 : lookupD tbl agid = none := by
          have h2 : lookupD (eraseD tbl k) agid = none := by rw [hnil]; rfl
          rwa [lookupD_eraseD, if_neg (fun he => h he.symm)] at h2
        simp [hemp, h, h1]
      · have hkk : ¬ k = agid := fun he => h he.symm
        simp [hemp, h, lookupD_eraseD, hkk]

theorem taskAlive_cleanup_other (st : ServerState) (cid : Nat) (k : PyVal)
    (c : Nat) (agid : PyVal) (h : c ≠ cid) :
    taskAlive (cleanup_playback_task st cid k).1 c agid = taskAlive st c agid := by
  unfold taskAlive
  rw [cleanup_tasks_other st cid k c h]

theorem foldl_cleanup_alive (cid : Nat) :
    ∀ (keys : List PyVal) (st : ServerState) (agid : PyVal),
      taskAlive (keys.foldl (fun s k => (cleanup_playback_task s cid k).1) st) cid agid
          = true →
        taskAlive st cid agid = true ∧ agid ∉ keys := by
  intro keys
  induction keys with
  | nil =>
    intro st agid h
    exact ⟨h, by simp⟩
  | cons k ks ih =>
    intro st agid h
    simp only [List.foldl_cons] at h
    rcases ih (cleanup_playback_task st cid k).1 agid h with ⟨h1, h2⟩
    rw [taskAlive_cleanup] at h1
    by_cases hk : agid = k
    · rw [if_pos hk] at h1
      exact Bool.noConfusion h1
    · rw [if_neg hk] at h1
      refine ⟨h1, ?_⟩
      simp only [List.mem_cons, not_or]
      exact ⟨hk, h2⟩

theorem stop_all_kills (st : ServerState) (cid : Nat) (agid : PyVal) :
    taskAlive (stop_all_playback st cid).1 cid agid = false := by
  cases hm : lookupD st.client_playback_tasks cid with
  | none => simp [stop_all_playback, hm, taskAlive]
  | some tbl =>
    simp only [stop_all_playback, hm]
    cases hb : taskAlive
        ((tbl.map Prod.fst).foldl (fun s k => (cleanup_playback_task s cid k).1) st)
        cid agid with
    | false => rfl
    | true =>
      exfalso
      rcases foldl_cleanup_alive cid (tbl.map Prod.fst) st agid hb with ⟨h1, h2⟩
      unfold taskAlive at h1
      rw [hm] at h1
      exact h2 (mem_keys_of_lookupD_isSome tbl agid h1)

theorem stop_all_emits (st : ServerState) (cid : Nat)
    (h : (lookupD st.client_playback_tasks cid).isSome = true) :
    (stop_all_playback st cid).2 = [Emit.toSelf (Event.actionResetAck 0)] := by
  cases hm : lookupD st.client_playback_tasks cid with
  | none => rw [hm] at h; exact Bool.noConfusion h
  | some tbl => simp [stop_all_playback, hm]

theorem dispatch_actionStart (st : ServerState) (cid : Nat) (f : Frame)
    (hf : msg_type f = "actionStart") (ht : f.actionGroupID.truthy = true) :
    dispatch st cid f = actionStartRun st cid f.actionGroupID := by
  simp [dispatch, hf, ht]

theorem dispatch_actionStop (st : ServerState) (cid : Nat) (f : Frame)
    (hf : msg_type f = "actionStop") (ht : f.actionGroupID.truthy = true) :
    dispatch st cid f = actionStopRun st cid f.actionGroupID := by
  simp [dispatch, hf, ht]

theorem dispatch_missing_agid (st : ServerState) (cid : Nat) (f : Frame)
    (hf : msg_type f = "actionStart" ∨ msg_type f = "actionStop")
    (ht : f.actionGroupID.truthy = false) :
    dispatch st cid f =
      (st, [Emit.toSelf (Event.errorEvt missingAgidMsg PyVal.vNone)]) := by
  rcases hf with hf | hf <;> simp [dispatch, hf, ht]

theorem dispatch_actionReset (st : ServerState) (cid : Nat) (f : Frame)
    (hf : msg_type f = "actionReset") :
    dispatch st cid f = stop_all_playback st cid := by
  simp [dispatch, hf]

theorem actionStartRun_emits (st : ServerState) (cid : Nat) (agid : PyVal) :
    (actionStartRun st cid agid).2 = [Emit.toSelf (Event.actionStartAck agid)] := rfl

/-- Claim C1: for every well-formed (JSON-parseable) inbound frame,
`process_message` emits the `ack` event with status `processed` as the very
first send, strictly before all handler-specific emissions (which are
exactly the dispatch's emissions and contain no `ack`). -/
theorem ack_precedes_handler (st : ServerState) (cid : Nat) (f : Frame) :
    (process_message st cid (InMsg.wellFormed f)).2 =
        Emit.toSelf (Event.ack "processed" (ackText (origMsg f))) ::
          (dispatch st cid f).2 ∧
      ∀ s m, Emit.toSelf (Event.ack s m) ∉ (dispatch st cid f).2 := by
  refine ⟨rfl, ?_⟩
  intro s m
  by_cases h1 : msg_type f = "actionStart"
  · by_cases ht : f.actionGroupID.truthy = true
    · rw [dispatch_actionStart st cid f h1 ht, actionStartRun_emits]
      simp
    · rw [dispatch_missing_agid st cid f (Or.inl h1)
        (Bool.not_eq_true _ ▸ Bool.eq_false_iff.mpr ht)]
      simp
  · by_cases h2 : msg_type f = "actionStop"
    · by_cases ht : f.actionGroupID.truthy = true
      · rw [dispatch_actionStop st cid f h2 ht]
        by_cases ha : taskAlive st cid f.actionGroupID = true <;>
          simp [actionStopRun, ha]
      · rw [dispatch_missing_agid st cid f (Or.inr h2)
          (Bool.not_eq_true _ ▸ Bool.eq_false_iff.mpr ht)]
        simp
    · by_cases h3 : msg_type f = "actionReset"
      · rw [dispatch_actionReset st cid f h3]
        cases hm : lookupD st.client_playback_tasks cid with
        | none => simp [stop_all_playback, hm]
        | some tbl => simp [stop_all_playback, hm]
      · by_cases h4 : msg_type f = "echo"
        · simp [dispatch, h1, h2, h3, h4]
        · by_cases h5 : msg_type f = "broadcast"
          · simp [dispatch, h1, h2, h3, h4, h5]
          · by_cases h6 : msg_type f = "get_server_info"
            · simp [dispatch, h1, h2, h3, h4, h5, h6]
            · by_cases h7 : msg_type f = "heartbeat" <;>
                simp [dispatch, h1, h2, h3, h4, h5, h6, h7]

/-- The single client of the concrete scenarios. -/
def wsA : BClient := { cid := 1, sendOk := true }

/-- Server state right after `wsA` connects: its task-table entry exists and
is empty. -/
def stConn : ServerState := (handle_client_connect initialState wsA).1

/-- `actionStart` frame with key 5 and a `message` field. -/
def startFrame5 : Frame :=
  { ftype := some "actionStart", actionGroupID := PyVal.vInt 5, message := some "go" }

/-- `actionStart` frame whose `actionGroupID` is present but is the falsy
integer 0. -/
def startFrame0 : Frame :=
  { ftype := some "actionStart", actionGroupID := PyVal.vInt 0, message := some "go" }

/-- `actionStart` frame whose `actionGroupID` is present but is the falsy
empty string. -/
def startFrameEmpty : Frame :=
  { ftype := some "actionStart", actionGroupID := PyVal.vStr "", message := some "go" }

/-- `actionStop` frame with key 5. -/
def stopFrame5 : Frame :=
  { ftype := some "actionStop", actionGroupID := PyVal.vInt 5, message := some "halt" }

/-- `actionStop` frame whose `actionGroupID` is present but is the falsy
integer 0. -/
def stopFrame0 : Frame :=
  { ftype := some "actionStop", actionGroupID := PyVal.vInt 0, message := some "halt" }

/-- `actionReset` frame. -/
def resetFrame : Frame :=
  { ftype := some "actionReset", actionGroupID := PyVal.vNone, message := some "reset" }

/-- State after `wsA` starts action group 5. -/
def stStarted : ServerState :=
  (process_message stConn 1 (InMsg.wellFormed startFrame5)).1

/-- State after `wsA` starts and then stops action group 5: the task table
no longer has an entry for client 1 at all, because `_cleanup_playback_task`
deletes the per-client dict once it becomes empty. -/
def stStopped : ServerState :=
  (process_message stStarted 1 (InMsg.wellFormed stopFrame5)).1

theorem actionStartRun_state (st : ServerState) (cid : Nat) (agid : PyVal) :
    lookupD ((lookupD (actionStartRun st cid agid).1.client_playback_tasks cid).getD [])
        agid = some { tid := st.next_tid, done := false } ∧
      lookupD (actionStartRun st cid agid).1.client_current_playing cid =
        some (some agid) ∧
      (∀ cur, lookupD st.client_current_playing cid = some (some cur) → cur ≠ agid →
        taskAlive (actionStartRun st cid agid).1 cid cur = false) := by
  cases hc : lookupD st.client_current_playing cid with
  | none =>
    refine ⟨?_, ?_, ?_⟩
    · simp [actionStartRun, hc, lookupD_insertD]
    · simp [actionStartRun, hc, lookupD_insertD]
    · intro cur hcur
      exact fun _ => Option.noConfusion hcur
  | some cv =>
    cases cv with
    | none =>
      refine ⟨?_, ?_, ?_⟩
      · simp [actionStartRun, hc, lookupD_insertD]
      · simp [actionStartRun, hc, lookupD_insertD]
      · intro cur hcur
        simp at hcur
    | some cur0 =>
      by_cases hp : (lookupD ((lookupD st.client_playback_tasks cid).getD []) cur0).isSome = true
      · refine ⟨?_, ?_, ?_⟩
        · simp [actionStartRun, hc, hp, lookupD_insertD, cleanup_next_tid]
        · simp [actionStartRun, hc, hp, lookupD_insertD]
        · intro cur hcur hne
          have hcur0 : cur = cur0 := by
            injection hcur with h1
            injection h1 with h2
            exact h2.symm
          subst hcur0
          have hna : ¬ agid = cur := fun he => hne he.symm
          simp only [actionStartRun, hc, hp, if_true, taskAlive, lookupD_insertD,
            if_pos rfl, Option.getD_some]
          rw [if_neg hna]
          cases hm : lookupD st.client_playback_tasks cid with
          | none =>
            have hclean : lookupD
                (cleanup_playback_task st cid cur).1.client_playback_tasks cid = none := by
              rw [cleanup_tasks_self, hm]
            rw [hclean]
            rfl
          | some tbl =>
            have hclean : lookupD
                (cleanup_playback_task st cid cur).1.client_playback_tasks cid =
                if (eraseD tbl cur).isEmpty then none else some (eraseD tbl cur) := by
              rw [cleanup_tasks_self, hm]
            rw [hclean]
            by_cases hemp : (eraseD tbl cur).isEmpty = true
            · rw [if_pos hemp]
              rfl
            · rw [if_neg hemp]
              simp only [Option.getD_some]
              rw [lookupD_eraseD, if_pos rfl]
              rfl
      · refine ⟨?_, ?_, ?_⟩
        · simp [actionStartRun, hc, hp, lookupD_insertD]
        · simp [actionStartRun, hc, hp, lookupD_insertD]
        · intro cur hcur hne
          have hcur0 : cur = cur0 := by
            injection hcur with h1
            injection h1 with h2
            exact h2.symm
          subst hcur0
          have hna : ¬ agid = cur := fun he => hne he.symm
          have hnone : lookupD ((lookupD st.client_playback_tasks cid).getD []) cur = none := by
            cases hl : lookupD ((lookupD st.client_playback_tasks cid).getD []) cur with
            | none => rfl
            | some t => rw [hl] at hp; simp at hp
          have hp2 : (lookupD ((lookupD st.client_playback_tasks cid).getD []) cur).isSome
              = false := by rw [hnone]; rfl
          simp [actionStartRun, hc, hp2, taskAlive, lookupD_insertD, hna, hnone]

/-- Claim C5 (amended): for an `actionStart` whose `actionGroupID` is present
AND truthy, the session's current action (if one was recorded) is cancelled
first, the fresh task is stored under the key, the key becomes the session's
current-playing pointer and an `actionStartAck` follows the ack; for a
missing OR falsy `actionGroupID` (Python truthiness, `if not
action_group_id`), the error event with message 缺少actionGroupID参数
(missing actionGroupID) follows the ack and no task is created — the state
is unchanged. -/
theorem actionStart_spec (st : ServerState) (cid : Nat) (f : Frame)
    (hf : msg_type f = "actionStart") :
    (f.actionGroupID.truthy = true →
      (process_message st cid (InMsg.wellFormed f)).2 =
          [Emit.toSelf (Event.ack "processed" (ackText (origMsg f))),
            Emit.toSelf (Event.actionStartAck f.actionGroupID)] ∧
        lookupD ((lookupD (process_message st cid
            (InMsg.wellFormed f)).1.client_playback_tasks cid).getD [])
          f.actionGroupID = some { tid := st.next_tid, done := false } ∧
        lookupD (process_message st cid
            (InMsg.wellFormed f)).1.client_current_playing cid =
          some (some f.actionGroupID) ∧
        (∀ cur, lookupD st.client_current_playing cid = some (some cur) →
          cur ≠ f.actionGroupID →
          taskAlive (process_message st cid (InMsg.wellFormed f)).1 cid cur = false)) ∧
    (f.actionGroupID.truthy = false →
      process_message st cid (InMsg.wellFormed f) =
        (st, [Emit.toSelf (Event.ack "processed" (ackText (origMsg f))),
          Emit.toSelf (Event.errorEvt missingAgidMsg PyVal.vNone)])) := by
  constructor
  · intro ht
    have hd := dispatch_actionStart st cid f hf ht
    have hstate := actionStartRun_state st cid f.actionGroupID
    have h1 : (process_message st cid (InMsg.wellFormed f)).1 =
        (actionStartRun st cid f.actionGroupID).1 := by
      simp [process_message, hd]
    refine ⟨?_, ?_, ?_, ?_⟩
    · simp [process_message, hd, actionStartRun_emits]
    · rw [h1]; exact hstate.1
    · rw [h1]; exact hstate.2.1
    · intro cur hcur hne
      rw [h1]; exact hstate.2.2 cur hcur hne
  · intro ht
    have hd := dispatch_missing_agid st cid f (Or.inl hf) ht
    simp [process_message, hd]

/-- Claim C5 counterexample: the frame has `actionGroupID` present (the
integer 0), yet `process_message` emits the missing-actionGroupID error
(whose message moreover is the Chinese 缺少actionGroupID参数, not the literal
"missing actionGroupID"), emits no `actionStartAck`, and creates no task —
the state is unchanged. -/
theorem actionStart_present_zero_counterexample :
    startFrame0.actionGroupID ≠ PyVal.vNone ∧
    process_message stConn 1 (InMsg.wellFormed startFrame0) =
      (stConn, [Emit.toSelf (Event.ack "processed" (ackText "go")),
        Emit.toSelf (Event.errorEvt missingAgidMsg PyVal.vNone)]) := by
  decide

theorem actionStart_spec_witness :
    (process_message stConn 1 (InMsg.wellFormed startFrame5)).2 =
      [Emit.toSelf (Event.ack "processed" (ackText "go")),
        Emit.toSelf (Event.actionStartAck (PyVal.vInt 5))] :=
  ((actionStart_spec stConn 1 startFrame5 rfl).1 rfl).1

/-- Claim C6 (amended): for an `actionStop` with a truthy `actionGroupID`:
if the key has an active task, it is removed (so a second identical
`actionStop` yields the not-found error), the current-playing pointer is
cleared when it matched the key, and `actionStopAck` follows the ack; if the
key has no active task, the error naming the missing key follows the ack and
the state is unchanged.  (For a present-but-falsy key the handler instead
emits the missing-parameter error — see the counterexample.) -/
theorem actionStop_spec (st : ServerState) (cid : Nat) (f : Frame)
    (hf : msg_type f = "actionStop") (ht : f.actionGroupID.truthy = true) :
    (taskAlive st cid f.actionGroupID = false →
      process_message st cid (InMsg.wellFormed f) =
        (st, [Emit.toSelf (Event.ack "processed" (ackText (origMsg f))),
          Emit.toSelf (Event.errorEvt (notFoundMsg f.actionGroupID)
            f.actionGroupID)])) ∧
    (taskAlive st cid f.actionGroupID = true →
      (process_message st cid (InMsg.wellFormed f)).2 =
          [Emit.toSelf (Event.ack "processed" (ackText (origMsg f))),
            Emit.toSelf (Event.actionStopAck f.actionGroupID)] ∧
        taskAlive (process_message st cid (InMsg.wellFormed f)).1 cid
          f.actionGroupID = false ∧
        (lookupD st.client_current_playing cid = some (some f.actionGroupID) →
          lookupD (process_message st cid
              (InMsg.wellFormed f)).1.client_current_playing cid = some none) ∧
        (process_message (process_message st cid (InMsg.wellFormed f)).1 cid
            (InMsg.wellFormed f)).2 =
          [Emit.toSelf (Event.ack "processed" (ackText (origMsg f))),
            Emit.toSelf (Event.errorEvt (notFoundMsg f.actionGroupID)
              f.actionGroupID)]) := by
  have hd := dispatch_actionStop st cid f hf ht
  constructor
  · intro ha
    simp [process_message, hd, actionStopRun, ha]
  · intro ha
    have hst1 : (process_message st cid (InMsg.wellFormed f)).1 =
        (cleanup_playback_task st cid f.actionGroupID).1 := by
      simp [process_message, hd, actionStopRun, ha]
    have h2 : taskAlive (process_message st cid (InMsg.wellFormed f)).1 cid
        f.actionGroupID = false := by
      rw [hst1, taskAlive_cleanup, if_pos rfl]
    refine ⟨?_, h2, ?_, ?_⟩
    · simp [process_message, hd, actionStopRun, ha]
    · intro hcur
      rw [hst1, cleanup_current_self, hcur]
      simp
    · have h2d : taskAlive (dispatch st cid f).1 cid f.actionGroupID = false := h2
      have hd2 := dispatch_actionStop (dispatch st cid f).1 cid f hf ht
      simp [process_message, hd2, actionStopRun, h2d]

/-- Claim C6 counterexample: `actionStop` on key 0 — a key with no active
task — does not produce an error naming the missing key: because 0 is falsy,
the handler emits the missing-parameter error 缺少actionGroupID参数 carrying
`actionGroupID = None`, which names no key.  (State is unchanged, as the
claim says.) -/
theorem actionStop_zero_key_counterexample :
    taskAlive stConn 1 (PyVal.vInt 0) = false ∧
    process_message stConn 1 (InMsg.wellFormed stopFrame0) =
      (stConn, [Emit.toSelf (Event.ack "processed" (ackText "halt")),
        Emit.toSelf (Event.errorEvt missingAgidMsg PyVal.vNone)]) := by
  decide

theorem actionStop_spec_witness :
    process_message stConn 1 (InMsg.wellFormed stopFrame5) =
      (stConn, [Emit.toSelf (Event.ack "processed" (ackText "halt")),
        Emit.toSelf (Event.errorEvt (notFoundMsg (PyVal.vInt 5))
          (PyVal.vInt 5))]) :=
  (actionStop_spec stConn 1 stopFrame5 rfl rfl).1 (by decide)

/-- `f` with its `actionGroupID` field removed (reading the removed field
with `dict.get` yields `None`). -/
def stripAgid (f : Frame) : Frame :=
  { ftype := f.ftype, actionGroupID := PyVal.vNone, message := f.message }

/-- Claim C9: a present but falsy `actionGroupID` (the integer 0, the empty
string, False — with `None` itself standing for the missing field) on an
`actionStart` or `actionStop` command is treated exactly as if the field
were missing: the dispatch is identical to the dispatch of the same frame
with the field absent, the missing-actionGroupID error event is emitted
after the ack, and no task is started or stopped (the state is returned
unchanged). -/
theorem falsy_agid_treated_missing (st : ServerState) (cid : Nat) (f : Frame)
    (hfalsy : f.actionGroupID.truthy = false)
    (htype : msg_type f = "actionStart" ∨ msg_type f = "actionStop") :
    dispatch st cid f = dispatch st cid (stripAgid f) ∧
      process_message st cid (InMsg.wellFormed f) =
        (st, [Emit.toSelf (Event.ack "processed" (ackText (origMsg f))),
          Emit.toSelf (Event.errorEvt missingAgidMsg PyVal.vNone)]) := by
  have hd1 := dispatch_missing_agid st cid f htype hfalsy
  have htype2 : msg_type (stripAgid f) = "actionStart" ∨
      msg_type (stripAgid f) = "actionStop" := htype
  have hd2 := dispatch_missing_agid st cid (stripAgid f) htype2 rfl
  exact ⟨hd1.trans hd2.symm, by simp [process_message, hd1]⟩

theorem falsy_agid_treated_missing_witness :
    process_message stConn 1 (InMsg.wellFormed startFrameEmpty) =
      (stConn, [Emit.toSelf (Event.ack "processed" (ackText "go")),
        Emit.toSelf (Event.errorEvt missingAgidMsg PyVal.vNone)]) :=
  (falsy_agid_treated_missing stConn 1 startFrameEmpty rfl (Or.inl rfl)).2

/-- Claim C4 (amended): when the session still has an entry in the
playback-task table (in particular any freshly connected session, whose
entry is the empty dict), `actionReset` emits exactly one `actionResetAck`
with `actionGroupID` 0 after the ack, and afterwards no action-group key of
the session is alive, so any playback loop whose liveness observations read
the post-reset state emits nothing further.  (When the entry has been
deleted — which happens once all its tasks are cleaned up — the handler
returns early and emits no `actionResetAck` at all; see the
counterexample.) -/
theorem actionReset_with_entry (st : ServerState) (cid : Nat) (f : Frame)
    (hf : msg_type f = "actionReset")
    (hpresent : (lookupD st.client_playback_tasks cid).isSome = true) :
    (process_message st cid (InMsg.wellFormed f)).2 =
        [Emit.toSelf (Event.ack "processed" (ackText (origMsg f))),
          Emit.toSelf (Event.actionResetAck 0)] ∧
      (∀ agid, taskAlive (process_message st cid (InMsg.wellFormed f)).1 cid agid
        = false) ∧
      (∀ n m agid alive sendOk, m ≤ n →
        (∀ k, m ≤ k → alive k =
          taskAlive (process_message st cid (InMsg.wellFormed f)).1 cid agid) →
        ∀ e ∈ simulate_playback n agid alive sendOk,
          ∃ i, i < m ∧ e = Event.progress (progVal n i) agid) := by
  have hd := dispatch_actionReset st cid f hf
  have hkill : ∀ agid,
      taskAlive (process_message st cid (InMsg.wellFormed f)).1 cid agid = false := by
    intro agid
    have : (process_message st cid (InMsg.wellFormed f)).1 =
        (stop_all_playback st cid).1 := by simp [process_message, hd]
    rw [this]
    exact stop_all_kills st cid agid
  refine ⟨?_, hkill, ?_⟩
  · simp [process_message, hd, stop_all_emits st cid hpresent]
  · intro n m agid alive sendOk hmn halive e he
    exact playback_events_before_dead n m agid alive sendOk hmn
      (fun k hk => (halive k hk).trans (hkill agid)) e he

/-- Claim C4 counterexample: after start-then-stop of key 5 the session has
zero active tasks (its whole table entry was deleted by
`_cleanup_playback_task`), and an `actionReset` then emits only the ack —
no `actionResetAck` is sent, because `_stop_all_playback` returns early when
`client_id not in self.client_playback_tasks`. -/
theorem actionReset_no_ack_counterexample :
    lookupD stStopped.client_playback_tasks 1 = none ∧
    (process_message stStopped 1 (InMsg.wellFormed resetFrame)).2 =
      [Emit.toSelf (Event.ack "processed" (ackText "reset"))] := by
  decide

theorem actionReset_with_entry_witness :
    (process_message stStarted 1 (InMsg.wellFormed resetFrame)).2 =
      [Emit.toSelf (Event.ack "processed" (ackText "reset")),
        Emit.toSelf (Event.actionResetAck 0)] :=
  (actionReset_with_entry stStarted 1 resetFrame rfl (by decide)).1

theorem foldl_broadcastStep (sender : Nat) :
    ∀ (l : List BClient) (acc1 acc2 : List BClient),
      l.foldl (broadcastStep sender) (acc1, acc2) =
        (acc1, acc2 ++ l.filter (fun c => c.cid ≠ sender)) := by
  intro l
  induction l with
  | nil => intro acc1 acc2; simp
  | cons c cs ih =>
    intro acc1 acc2
    by_cases hcs : c.cid = sender
    · have hstep : broadcastStep sender (acc1, acc2) c = (acc1, acc2) := by
        simp [broadcastStep, hcs]
      rw [List.foldl_cons, hstep, ih]
      simp [List.filter_cons, hcs]
    · have hstep : broadcastStep sender (acc1, acc2) c = (acc1, acc2 ++ [c]) := by
        simp [broadcastStep, hcs, coroCallRaises]
      rw [List.foldl_cons, hstep, ih]
      simp [List.filter_cons, hcs]

theorem broadcast_message_spec (registry : List BClient) (sender : Nat) :
    broadcast_message registry sender =
      (registry, (registry.filter (fun c => c.cid ≠ sender)).map (fun c => c.cid)) := by
  unfold broadcast_message
  rw [foldl_broadcastStep]
  simp

/-- The registry of the C8 scenario: clients 1 and 3 healthy, client 2 with
a closed peer socket, so the send to client 2 fails inside
`asyncio.gather`. -/
def regABC : List BClient :=
  [{ cid := 1, sendOk := true }, { cid := 2, sendOk := false },
    { cid := 3, sendOk := true }]

/-- Claim C8 (code bug): client 1 broadcasts to the registry in which client
2's socket is closed.  The payload send is attempted to every registered
connection except the sender — clients 2 and 3 — and the remaining
recipient 3 is unaffected by 2's failure (gather runs the sends
independently, swallowing exceptions); but the failing client 2 is NOT
dropped from the registry, which comes out of the fan-out unchanged: the
`except` branch that the source's own comment says removes a failed
connection guards only the creation of the send coroutine, which cannot
raise. -/
theorem broadcast_failing_client_kept :
    broadcast_message regABC 1 = (regABC, [2, 3]) := by
  decide

/-- Claim C7: whichever exit path ends `handle_client` — normal end of
stream, `ConnectionClosed`, or any other exception — the `finally` teardown
runs (exactly once, being the single exit point): every not-yet-done task
owned by the session has `cancel()` called on it (the teardown itself never
suspends, so it does not wait for the loops), the session's playback-task
and current-playing entries are deleted, and the connection is removed from
the registry. -/
theorem teardown_on_every_exit (p : ExitPath) (st : ServerState) (cid : Nat) :
    handle_client_exit p st cid = client_teardown st cid ∧
      lookupD (handle_client_exit p st cid).1.client_playback_tasks cid = none ∧
      lookupD (handle_client_exit p st cid).1.client_current_playing cid = none ∧
      (∀ c ∈ (handle_client_exit p st cid).1.connected_clients, c.cid ≠ cid) ∧
      (∀ tbl, lookupD st.client_playback_tasks cid = some tbl →
        ∀ k t, (k, t) ∈ tbl → t.done = false →
          t.tid ∈ (handle_client_exit p st cid).2) := by
  have hpt : handle_client_exit p st cid = client_teardown st cid := by
    cases p <;> rfl
  rw [hpt]
  have hreg : (client_teardown st cid).1.connected_clients =
      st.connected_clients.filter (fun c => decide (c.cid ≠ cid)) := by
    cases hm : lookupD st.client_playback_tasks cid <;>
      simp [client_teardown, hm]
  refine ⟨rfl, ?_, ?_, ?_, ?_⟩
  · cases hm : lookupD st.client_playback_tasks cid with
    | none => simp [client_teardown, hm]
    | some tbl => simp [client_teardown, hm, lookupD_eraseD]
  · cases hm : lookupD st.client_playback_tasks cid with
    | none => simp [client_teardown, hm, lookupD_eraseD]
    | some tbl => simp [client_teardown, hm, lookupD_eraseD]
  · intro c hc
    rw [hreg] at hc
    exact of_decide_eq_true (List.mem_filter.mp hc).2
  · intro tbl hm k t hkt hdone
    have h2 : (client_teardown st cid).2 =
        (tbl.filter (fun kt => !kt.2.done)).map (fun kt => kt.2.tid) := by
      simp [client_teardown, hm]
    rw [h2]
    refine List.mem_map.mpr ⟨(k, t), ?_, rfl⟩
    refine List.mem_filter.mpr ⟨hkt, ?_⟩
    rw [hdone]
    rfl

theorem teardown_on_every_exit_witness :
    lookupD (handle_client_exit ExitPath.otherErr stStarted
      1).1.client_playback_tasks 1 = none :=
  (teardown_on_every_exit ExitPath.otherErr stStarted 1).2.1

/-- Propositional form of `sessionInvB`. -/
def sessionInvP (st : ServerState) (cid : Nat) : Prop :=
  ∀ tbl, lookupD st.client_playback_tasks cid = some tbl →
    tbl.length ≤ 1 ∧ ∀ k t, (k, t) ∈ tbl →
      lookupD st.client_current_playing cid = some (some k)

theorem sessionInvB_eq_true_iff (st : ServerState) (cid : Nat) :
    sessionInvB st cid = true ↔ sessionInvP st cid := by
  unfold sessionInvB sessionInvP
  cases hm : lookupD st.client_playback_tasks cid with
  | none =>
    simp only [true_iff]
    intro tbl htbl
    exact Option.noConfusion htbl
  | some tbl =>
    rw [Bool.and_eq_true, decide_eq_true_iff, List.all_eq_true]
    constructor
    · rintro ⟨h1, h2⟩ tbl' htbl'
      have : tbl = tbl' := Option.some.inj htbl'
      subst this
      refine ⟨h1, fun k t hkt => ?_⟩
      have := h2 (k, t) hkt
      exact of_decide_eq_true this
    · intro h
      obtain ⟨h1, h2⟩ := h tbl rfl
      refine ⟨h1, fun kt hkt => ?_⟩
      exact decide_eq_true (h2 kt.1 kt.2 hkt)

theorem sessionInvP_cleanup (st : ServerState) (cid : Nat) (k : PyVal) (c : Nat)
    (h : sessionInvP st c) : sessionInvP (cleanup_playback_task st cid k).1 c := by
  by_cases hcc : c = cid
  · subst hcc
    intro tbl' htbl'
    rw [cleanup_tasks_self] at htbl'
    cases hm : lookupD st.client_playback_tasks c with
    | none =>
      rw [hm] at htbl'
      exact Option.noConfusion htbl'
    | some tbl =>
      rw [hm] at htbl'
      have htblr : (if (eraseD tbl k).isEmpty = true then none
          else some (eraseD tbl k)) = some tbl' := htbl'
      by_cases hemp : (eraseD tbl k).isEmpty = true
      · rw [if_pos hemp] at htblr
        exact Option.noConfusion htblr
      · rw [if_neg hemp] at htblr
        have htbl2 : tbl' = eraseD tbl k := (Option.some.inj htblr).symm
        subst htbl2
        obtain ⟨hlen, hcur⟩ := h tbl hm
        constructor
        · exact le_trans (length_eraseD_le tbl k) hlen
        · intro k' t hk't
          obtain ⟨hmem, hne⟩ := (mem_eraseD tbl k (k', t)).mp hk't
          have hcur' := hcur k' t hmem
          rw [cleanup_current_self, hcur']
          have hns : ¬ (some k' : Option PyVal) = some k :=
            fun he => hne (Option.some.inj he)
          simp [hns]
  · intro tbl' htbl'
    rw [cleanup_tasks_other st cid k c hcc] at htbl'
    obtain ⟨hlen, hcur⟩ := h tbl' htbl'
    refine ⟨hlen, fun k' t hkt => ?_⟩
    rw [cleanup_current_other st cid k c hcc]
    exact hcur k' t hkt

theorem sessionInvP_foldl_cleanup (cid : Nat) (keys : List PyVal) :
    ∀ (st : ServerState) (c : Nat), sessionInvP st c →
      sessionInvP (keys.foldl (fun s k => (cleanup_playback_task s cid k).1) st) c := by
  induction keys with
  | nil => intro st c h; exact h
  | cons k ks ih =>
    intro st c h
    rw [List.foldl_cons]
    exact ih (cleanup_playback_task st cid k).1 c (sessionInvP_cleanup st cid k c h)

theorem sessionInvP_actionStartRun (st : ServerState) (cid : Nat) (agid : PyVal)
    (c : Nat) (h : ∀ c', sessionInvP st c') :
    sessionInvP (actionStartRun st cid agid).1 c := by
  have hgen : ∀ st1 : ServerState, (∀ c', sessionInvP st1 c') →
      (lookupD st1.client_playback_tasks cid).getD [] = [] →
      sessionInvP
        { st1 with
            client_playback_tasks :=
              insertD st1.client_playback_tasks cid
                (insertD ((lookupD st1.client_playback_tasks cid).getD []) agid
                  { tid := st1.next_tid, done := false }),
            client_current_playing :=
              insertD st1.client_current_playing cid (some agid),
            next_tid := st1.next_tid + 1 } c := by
    intro st1 hinv1 htbl
    intro tbl' htbl'
    by_cases hcc : c = cid
    · subst hcc
      have htbl2 : lookupD (insertD st1.client_playback_tasks c
          (insertD ((lookupD st1.client_playback_tasks c).getD []) agid
            { tid := st1.next_tid, done := false })) c = some tbl' := htbl'
      rw [htbl, lookupD_insertD, if_pos rfl] at htbl2
      have htbl3 : tbl' = [(agid, { tid := st1.next_tid, done := false })] :=
        (Option.some.inj htbl2).symm
      subst htbl3
      constructor
      · simp
      · intro k t hkt
        have hk : k = agid := by
          rcases List.mem_cons.mp hkt with hh | hh
          · exact congrArg Prod.fst hh
          · simp at hh
        subst hk
        show lookupD (insertD st1.client_current_playing c (some k)) c =
          some (some k)
        rw [lookupD_insertD, if_pos rfl]
    · have hne : ¬ cid = c := fun he => hcc he.symm
      have htbl2 : lookupD (insertD st1.client_playback_tasks cid
          (insertD ((lookupD st1.client_playback_tasks cid).getD []) agid
            { tid := st1.next_tid, done := false })) c = some tbl' := htbl'
      rw [lookupD_insertD, if_neg hne] at htbl2
      obtain ⟨hlen, hcur⟩ := hinv1 c tbl' htbl2
      refine ⟨hlen, fun k t hkt => ?_⟩
      show lookupD (insertD st1.client_current_playing cid (some agid)) c =
        some (some k)
      rw [lookupD_insertD, if_neg hne]
      exact hcur k t hkt
  cases hc : lookupD st.client_current_playing cid with
  | none =>
    have htbl : (lookupD st.client_playback_tasks cid).getD [] = [] := by
      cases hm : lookupD st.client_playback_tasks cid with
      | none => rfl
      | some tbl =>
        cases tbl with
        | nil => rfl
        | cons kv rest =>
          exfalso
          have hcur := ((h cid) (kv :: rest) hm).2 kv.1 kv.2
            (List.mem_cons_self kv rest)
          rw [hc] at hcur
          exact Option.noConfusion hcur
    simp only [actionStartRun, hc]
    exact hgen st h htbl
  | some cv =>
    cases cv with
    | none =>
      have htbl : (lookupD st.client_playback_tasks cid).getD [] = [] := by
        cases hm : lookupD st.client_playback_tasks cid with
        | none => rfl
        | some tbl =>
          cases tbl with
          | nil => rfl
          | cons kv rest =>
            exfalso
            have hcur := ((h cid) (kv :: rest) hm).2 kv.1 kv.2
              (List.mem_cons_self kv rest)
            rw [hc] at hcur
            have := Option.some.inj hcur
            exact Option.noConfusion this
      simp only [actionStartRun, hc]
      exact hgen st h htbl
    | some cur0 =>
      by_cases hp : (lookupD ((lookupD st.client_playback_tasks cid).getD [])
          cur0).isSome = true
      · have hclean1 : ∀ c', sessionInvP (cleanup_playback_task st cid cur0).1 c' :=
          fun c' => sessionInvP_cleanup st cid cur0 c' (h c')
        have htbl : (lookupD
            (cleanup_playback_task st cid cur0).1.client_playback_tasks cid).getD []
            = [] := by
          cases hm : lookupD st.client_playback_tasks cid with
          | none =>
            rw [hm] at hp
            simp [lookupD] at hp
          | some tbl =>
            rw [hm] at hp
            obtain ⟨hlen, hcur⟩ := (h cid) tbl hm
            cases tbl with
            | nil => simp [lookupD] at hp
            | cons kv rest =>
              cases rest with
              | cons kv2 r2 => simp at hlen
              | nil =>
                have hk : kv.1 = cur0 := by
                  by_cases hq : kv.1 = cur0
                  · exact hq
                  · exfalso
                    simp [lookupD, hq] at hp
                have hclean : lookupD
                    (cleanup_playback_task st cid cur0).1.client_playback_tasks cid =
                    if (eraseD [kv] cur0).isEmpty then none
                    else some (eraseD [kv] cur0) := by
                  rw [cleanup_tasks_self, hm]
                have herase : eraseD [kv] cur0 = [] := by
                  simp [eraseD, hk]
                rw [hclean, herase]
                rfl
        simp only [actionStartRun, hc, hp, if_true]
        exact hgen (cleanup_playback_task st cid cur0).1 hclean1 htbl
      · have hp2 : (lookupD ((lookupD st.client_playback_tasks cid).getD [])
            cur0).isSome = false := by
          cases hl : (lookupD ((lookupD st.client_playback_tasks cid).getD [])
              cur0).isSome with
          | false => rfl
          | true => exact absurd hl hp
        have htbl : (lookupD st.client_playback_tasks cid).getD [] = [] := by
          cases hm : lookupD st.client_playback_tasks cid with
          | none => rfl
          | some tbl =>
            cases tbl with
            | nil => rfl
            | cons kv rest =>
              exfalso
              have hcur := ((h cid) (kv :: rest) hm).2 kv.1 kv.2
                (List.mem_cons_self kv rest)
              rw [hc] at hcur
              have hkc : cur0 = kv.1 :=
                Option.some.inj (Option.some.inj hcur)
              apply hp
              rw [hm]
              simp only [Option.getD_some]
              rw [lookupD]
              rw [if_pos hkc.symm]
              rfl
        simp only [actionStartRun, hc, hp2, Bool.false_eq_true, if_false]
        exact hgen st h htbl

theorem sessionInvP_process (st : ServerState) (cid : Nat) (m : InMsg) (c : Nat)
    (h : ∀ c', sessionInvP st c') :
    sessionInvP (process_message st cid m).1 c := by
  cases m with
  | malformed raw => exact h c
  | wellFormed f =>
    show sessionInvP (dispatch st cid f).1 c
    by_cases h1 : msg_type f = "actionStart"
    · by_cases ht : f.actionGroupID.truthy = true
      · rw [dispatch_actionStart st cid f h1 ht]
        exact sessionInvP_actionStartRun st cid f.actionGroupID c h
      · rw [dispatch_missing_agid st cid f (Or.inl h1)
          (Bool.not_eq_true _ ▸ Bool.eq_false_iff.mpr ht)]
        exact h c
    · by_cases h2 : msg_type f = "actionStop"
      · by_cases ht : f.actionGroupID.truthy = true
        · rw [dispatch_actionStop st cid f h2 ht]
          unfold actionStopRun
          by_cases ha : taskAlive st cid f.actionGroupID = true
          · simp only [ha, if_true]
            exact sessionInvP_cleanup st cid f.actionGroupID c (h c)
          · have ha2 : taskAlive st cid f.actionGroupID = false := by
              cases hl : taskAlive st cid f.actionGroupID with
              | false => rfl
              | true => exact absurd hl ha
            simp only [ha2, Bool.false_eq_true, if_false]
            exact h c
        · rw [dispatch_missing_agid st cid f (Or.inr h2)
            (Bool.not_eq_true _ ▸ Bool.eq_false_iff.mpr ht)]
          exact h c
      · by_cases h3 : msg_type f = "actionReset"
        · rw [dispatch_actionReset st cid f h3]
          unfold stop_all_playback
          cases hm : lookupD st.client_playback_tasks cid with
          | none => exact h c
          | some tbl =>
            exact sessionInvP_foldl_cleanup cid (tbl.map Prod.fst) st c (h c)
        · by_cases h4 : msg_type f = "echo"
          · simp only [dispatch, h1, h2, h3, h4, if_false, if_true]
            exact h c
          · by_cases h5 : msg_type f = "broadcast"
            · simp only [dispatch, h1, h2, h3, h4, h5, if_false, if_true]
              exact h c
            · by_cases h6 : msg_type f = "get_server_info"
              · simp only [dispatch, h1, h2, h3, h4, h5, h6, if_false, if_true]
                exact h c
              · by_cases h7 : msg_type f = "heartbeat" <;>
                  · simp only [dispatch, h1, h2, h3, h4, h5, h6, h7, if_false,
                      if_true]
                    exact h c

theorem sessionInvP_connect (st : ServerState) (ws : BClient) (c : Nat)
    (h : sessionInvP st c) : sessionInvP (handle_client_connect st ws).1 c := by
  intro tbl htbl
  by_cases hcc : c = ws.cid
  · subst hcc
    have htbl2 : lookupD (insertD st.client_playback_tasks ws.cid []) ws.cid
        = some tbl := htbl
    rw [lookupD_insertD, if_pos rfl] at htbl2
    have htbl3 : tbl = [] := (Option.some.inj htbl2).symm
    subst htbl3
    exact ⟨by simp, fun k t hkt => absurd hkt (List.not_mem_nil (k, t))⟩
  · have hne : ¬ ws.cid = c := fun he => hcc he.symm
    have htbl2 : lookupD (insertD st.client_playback_tasks ws.cid []) c = some tbl :=
      htbl
    rw [lookupD_insertD, if_neg hne] at htbl2
    obtain ⟨hlen, hcur⟩ := h tbl htbl2
    refine ⟨hlen, fun k t hkt => ?_⟩
    show lookupD (insertD st.client_current_playing ws.cid none) c = some (some k)
    rw [lookupD_insertD, if_neg hne]
    exact hcur k t hkt

theorem sessionInvP_teardown (st : ServerState) (cid : Nat) (c : Nat)
    (h : sessionInvP st c) : sessionInvP (client_teardown st cid).1 c := by
  intro tbl htbl
  by_cases hcc : c = cid
  · exfalso
    rw [hcc] at htbl
    cases hm : lookupD st.client_playback_tasks cid with
    | none =>
      have hta : (client_teardown st cid).1.client_playback_tasks =
          st.client_playback_tasks := by
        simp [client_teardown, hm]
      rw [hta, hm] at htbl
      exact Option.noConfusion htbl
    | some tbl0 =>
      have hta : (client_teardown st cid).1.client_playback_tasks =
          eraseD st.client_playback_tasks cid := by
        simp [client_teardown, hm]
      rw [hta, lookupD_eraseD, if_pos rfl] at htbl
      exact Option.noConfusion htbl
  · have hne : ¬ cid = c := fun he => hcc he.symm
    have hta : (client_teardown st cid).1.client_playback_tasks =
        eraseD st.client_playback_tasks cid ∨
        (client_teardown st cid).1.client_playback_tasks =
          st.client_playback_tasks := by
      cases hm : lookupD st.client_playback_tasks cid with
      | none => right; simp [client_teardown, hm]
      | some tbl0 => left; simp [client_teardown, hm]
    have hcu : (client_teardown st cid).1.client_current_playing =
        eraseD st.client_current_playing cid := by
      cases hm : lookupD st.client_playback_tasks cid <;>
        simp [client_teardown, hm]
    have htbl2 : lookupD st.client_playback_tasks c = some tbl := by
      rcases hta with hta | hta
      · rw [hta, lookupD_eraseD, if_neg hne] at htbl
        exact htbl
      · rw [hta] at htbl
        exact htbl
    obtain ⟨hlen, hcur⟩ := h tbl htbl2
    refine ⟨hlen, fun k t hkt => ?_⟩
    rw [hcu, lookupD_eraseD, if_neg hne]
    exact hcur k t hkt

/-- Claim C10: every transition of the server — connect, processing any
inbound payload, natural playback completion, disconnect teardown —
preserves the per-session invariant: a session's playback-task table entry,
when present, holds at most one task, and the key of that sole task equals
the session's current-playing pointer.  (In particular `actionStart` cleans
up the recorded current task before storing the new one, and every removal
also clears a matching current-playing pointer.) -/
theorem session_inv_preserved (st st' : ServerState) (h : ServerStep st st')
    (hinv : ∀ c, sessionInvB st c = true) : ∀ c, sessionInvB st' c = true := by
  intro c
  have hinvP : ∀ c', sessionInvP st c' :=
    fun c' => (sessionInvB_eq_true_iff st c').mp (hinv c')
  rw [sessionInvB_eq_true_iff]
  cases h with
  | connect ws => exact sessionInvP_connect st ws c (hinvP c)
  | message cid m => exact sessionInvP_process st cid m c hinvP
  | finish cid agid =>
    unfold playback_finish
    by_cases ha : taskAlive st cid agid = true
    · simp only [ha, if_true]
      exact sessionInvP_cleanup st cid agid c (hinvP c)
    · have ha2 : taskAlive st cid agid = false := by
        cases hl : taskAlive st cid agid with
        | false => rfl
        | true => exact absurd hl ha
      simp only [ha2, Bool.false_eq_true, if_false]
      exact hinvP c
  | disconnect cid => exact sessionInvP_teardown st cid c (hinvP c)

theorem session_inv_preserved_witness :
    sessionInvB stConn 1 = true ∧ sessionInvB stConn 2 = true :=
  ⟨session_inv_preserved initialState stConn
      (ServerStep.connect initialState wsA) (fun _ => rfl) 1,
    session_inv_preserved initialState stConn
      (ServerStep.connect initialState wsA) (fun _ => rfl) 2⟩

theorem ack_precedes_handler_witness :
    (process_message stConn 1 (InMsg.wellFormed startFrame5)).2 =
      Emit.toSelf (Event.ack "processed" (ackText (origMsg startFrame5))) ::
        (dispatch stConn 1 startFrame5).2 :=
  (ack_precedes_handler stConn 1 startFrame5).1
